import Mathlib

set_option linter.unnecessarySeqFocus false

/-!
Shallow embedding of `src/main.py` (YT/TikTok downloader).

The embedding covers the parts of the program the specification talks about:
the progress hook `YTDLDownloader._progress_hook`, the retrying loop of
`YTDLDownloader.download` (format validation, ffmpeg probe, output-directory
resolution, attempt loop with backoff sleeps), and the `stop()` flag of the
downloader object.  The external extraction engine is abstracted as a function
from the attempt number to an engine result; the host environment (ffmpeg on
PATH, existence/creatability of the output directory) is a record of booleans.
Every sleep duration and every engine invocation is recorded in a trace so
that counting claims can be stated.
-/

/-- A raw progress event as passed by yt-dlp to the progress hook: a dict with
optional integer fields.  `none` models an absent key (the code reads the dict
with `d.get(...)`). -/
structure RawEvent where
  status : Option String
  downloaded_bytes : Option Int
  total_bytes : Option Int
  total_bytes_estimate : Option Int
  speed : Option Int
  eta : Option Int
  deriving Repr, DecidableEq

/-- The `self._last_progress` dict.  The hook overwrites it wholesale, with one
shape per status; `empty` is the `{}` set in `__init__`. -/
inductive Snapshot where
  | empty
  | downloading (downloadedBytes : Int) (totalBytes : Int) (percent : Option ℚ)
      (speed : Option Int) (eta : Option Int)
  | finished
  | error
  deriving Repr, DecidableEq

/-- `d.get("downloaded_bytes", -1)`. -/
def downloadedBytesOf (e : RawEvent) : Int :=
  e.downloaded_bytes.getD (-1)

/-- `d.get("total_bytes") or d.get("total_bytes_estimate", -1)`: Python `or`
falls through when the first operand is falsy (absent or 0). -/
def totalBytesOf (e : RawEvent) : Int :=
  match e.total_bytes with
  | some t => if t ≠ 0 then t else e.total_bytes_estimate.getD (-1)
  | none => e.total_bytes_estimate.getD (-1)

/-- `YTDLDownloader._progress_hook` (src/main.py lines 73-97): one event
updates `_last_progress`; the percent is set only under the truthiness test
`if total_bytes and downloaded_bytes and total_bytes > 0`.  An unrecognized
status leaves the state unchanged. -/
def progress_hook (s : Snapshot) (e : RawEvent) : Snapshot :=
  if e.status = some "downloading" then
    Snapshot.downloading (downloadedBytesOf e) (totalBytesOf e)
      (if totalBytesOf e ≠ 0 ∧ downloadedBytesOf e ≠ 0 ∧ totalBytesOf e > 0
       then some ((downloadedBytesOf e : ℚ) / (totalBytesOf e : ℚ) * 100)
       else none)
      e.speed e.eta
  else if e.status = some "finished" then Snapshot.finished
  else if e.status = some "error" then Snapshot.error
  else s

/-- Feeding a whole sequence of raw events through the hook. -/
def ingestAll (s : Snapshot) (evs : List RawEvent) : Snapshot :=
  evs.foldl progress_hook s

/-- The percent field of the current snapshot, absent unless downloading. -/
def percentOf : Snapshot → Option ℚ
  | .downloading _ _ p _ _ => p
  | _ => none

/-- The downloaded-bytes field of the current snapshot. -/
def snapDownloaded : Snapshot → Option Int
  | .downloading db _ _ _ _ => some db
  | _ => none

/-- The total-bytes field of the current snapshot. -/
def snapTotal : Snapshot → Option Int
  | .downloading _ tb _ _ _ => some tb
  | _ => none

/-- The metadata dict returned by `ydl.extract_info` on success, restricted to
the keys the code reads (`title`, `id`). -/
structure MediaInfo where
  title : Option String
  id : Option String
  deriving Repr, DecidableEq

/-- One invocation of the extraction engine either returns metadata or raises;
`failure` carries `str(e)` of the raised exception. -/
inductive EngineResult where
  | success (info : MediaInfo)
  | failure (msg : String)
  deriving Repr, DecidableEq

/-- The exceptions `download` can raise, by the `raise` site in src/main.py:
`ValueError` (line 101), `RuntimeError` for missing ffmpeg (line 105),
`OSError`/`IOError` out of `os.makedirs` (line 39), `RuntimeError` for a stop
request (line 141), and the final `RuntimeError` (line 159) carrying the last
engine error. -/
inductive DLErr where
  | invalidFormat
  | missingDependency
  | ioError
  | stopped
  | allAttemptsFailed (lastErr : Option String)
  deriving Repr, DecidableEq

/-- Host environment: `shutil.which("ffmpeg") is not None`, whether
`os.path.isdir(output_dir)` holds, and whether `os.makedirs` would succeed. -/
structure Env where
  ffmpegAvailable : Bool
  isDir : Bool
  canCreate : Bool
  deriving Repr, DecidableEq

/-- Python `str(x)` on an optional string (an f-string renders `None`). -/
def pyStrOpt : Option String → String
  | some s => s
  | none => "None"

/-- `info.get("title") or info.get("id")` (line 147): Python `or` falls
through on a falsy title (absent or empty string). -/
def titleOf (i : MediaInfo) : Option String :=
  match i.title with
  | some s => if s = "" then i.id else some s
  | none => i.id

/-- `f"{title} [{video_id}].{ext}"` (line 149). -/
def finalFilename (i : MediaInfo) (ext : String) : String :=
  pyStrOpt (titleOf i) ++ " [" ++ pyStrOpt i.id ++ "]." ++ ext

/-- `b.startswith('/')`, computed on the character list. -/
def startsWithSlash (b : String) : Bool :=
  match b.toList with
  | [] => false
  | c :: _ => c == '/'

/-- `a.endswith('/')`, computed on the character list. -/
def endsWithSlash (a : String) : Bool :=
  match a.toList.getLast? with
  | some c => c == '/'
  | none => false

/-- `os.path.join(a, b)` on POSIX for the two-argument case. -/
def osPathJoin (a b : String) : String :=
  if startsWithSlash b then b
  else if a = "" then b
  else if endsWithSlash a then a ++ b
  else a ++ "/" ++ b

/-- The message of the exception raised at line 159
(`f"All attempts failed. Last error: {last_err}"`). -/
def allAttemptsFailedMessage (lastErr : Option String) : String :=
  "All attempts failed. Last error: " ++ pyStrOpt lastErr

/-- `safe_output_template` (lines 36-40): creates the directory if absent,
failing when creation is impossible; returns the yt-dlp output template and
whether the directory was created. -/
def safe_output_template (env : Env) (output_dir : String) : Except DLErr (String × Bool) :=
  if env.isDir then
    Except.ok (osPathJoin output_dir "%(title)s [%(id)s].%(ext)s", false)
  else if env.canCreate then
    Except.ok (osPathJoin output_dir "%(title)s [%(id)s].%(ext)s", true)
  else Except.error DLErr.ioError

/-- Result of the attempt loop: the outcome, the number of engine
invocations, and the list of backoff sleep durations in order. -/
structure LoopOut where
  result : Except DLErr String
  engineCalls : Nat
  sleeps : List Nat
  deriving Repr

/-- The loop `for attempt in range(1, max_retries + 1)` of
`YTDLDownloader.download` (lines 138-159), written with `fuel` = number of
remaining iterations (initially `max_retries`, with `attempt` starting at 1).
Each iteration first checks the stop flag (line 140); on engine success it
returns the final path (lines 144-152); on failure it records the error,
sleeps `1 + attempt` (line 156) and continues; an exhausted loop raises the
aggregate error (line 159). -/
def loopGo (eng : Nat → EngineResult) (stopAt : Nat → Bool) (output_dir ext : String)
    (attempt : Nat) (fuel : Nat) (lastErr : Option String)
    (calls : Nat) (sleeps : List Nat) : LoopOut :=
  match fuel with
  | 0 => ⟨Except.error (DLErr.allAttemptsFailed lastErr), calls, sleeps⟩
  | Nat.succ fuel' =>
    if stopAt attempt then ⟨Except.error DLErr.stopped, calls, sleeps⟩
    else
      match eng attempt with
      | .success info =>
          ⟨Except.ok (osPathJoin output_dir (finalFilename info ext)), calls + 1, sleeps⟩
      | .failure msg =>
          loopGo eng stopAt output_dir ext (attempt + 1) fuel' (some msg)
            (calls + 1) (sleeps ++ [1 + attempt])

/-- Full trace of one `download` call: outcome plus counters for the ffmpeg
probe, the path-resolution step, whether the directory was created, the
engine invocations and the backoff sleeps. -/
structure DLTrace where
  result : Except DLErr String
  probeCalls : Nat
  resolveCalls : Nat
  createdDir : Bool
  engineCalls : Nat
  sleeps : List Nat
  deriving Repr

/-- The source calls `check_ffmpeg_available` only when the format is mp3
(short-circuit of `needs_ffmpeg and not check_ffmpeg_available()`, line 104):
how often the probe runs for a given format. -/
def probeCallsFor (output_format : String) : Nat :=
  if output_format = "mp3" then 1 else 0

/-- `YTDLDownloader.download` (lines 99-159).  `stopAt i` is the value of
`self._stop_requested` observed by the check at the top of iteration `i`.
Order of operations as in the source: format validation (line 100), ffmpeg
probe only when the format is mp3 (lines 103-105), output template resolution
(line 107), then the attempt loop. -/
def download (env : Env) (eng : Nat → EngineResult) (stopAt : Nat → Bool)
    (output_dir : String) (output_format : String) (max_retries : Nat) : DLTrace :=
  if ¬(output_format = "mp4" ∨ output_format = "mp3") then
    ⟨Except.error DLErr.invalidFormat, 0, 0, false, 0, []⟩
  else if output_format = "mp3" ∧ env.ffmpegAvailable = false then
    ⟨Except.error DLErr.missingDependency, probeCallsFor output_format, 0, false, 0, []⟩
  else
    match safe_output_template env output_dir with
    | Except.error _ =>
        ⟨Except.error DLErr.ioError, probeCallsFor output_format, 1, false, 0, []⟩
    | Except.ok (_, created) =>
        let ext := if output_format = "mp3" then "mp3" else "mp4"
        let out := loopGo eng stopAt output_dir ext 1 max_retries none 0 []
        ⟨out.result, probeCallsFor output_format, 1, created, out.engineCalls, out.sleeps⟩

/-- The state of a `YTDLDownloader` object relevant to cancellation:
`self._stop_requested`, set to `False` in `__init__`. -/
structure DownloaderState where
  stopRequested : Bool
  deriving Repr, DecidableEq

/-- `YTDLDownloader.__init__`: the stop flag starts cleared. -/
def initState : DownloaderState := ⟨false⟩

/-- `YTDLDownloader.stop` (lines 161-162): sets the flag, never clears it. -/
def stopOp (s : DownloaderState) : DownloaderState := { s with stopRequested := true }

/-- The operations callable on a downloader object that touch or read the
stop flag. -/
inductive Op where
  | stop
  | download (env : Env) (eng : Nat → EngineResult) (output_dir fmt : String) (n : Nat)

/-- Effect of an operation on the object state: `stop` sets the flag;
`download` never writes `self._stop_requested`. -/
def applyOp (s : DownloaderState) : Op → DownloaderState
  | Op.stop => stopOp s
  | Op.download _ _ _ _ _ => s

/-- Running a sequence of operations on the object. -/
def runOps (s : DownloaderState) (ops : List Op) : DownloaderState :=
  ops.foldl applyOp s

/-- A `download` call on an object whose flag is not concurrently mutated:
every loop check observes the current value of `self._stop_requested`. -/
def downloadOp (s : DownloaderState) (env : Env) (eng : Nat → EngineResult)
    (output_dir fmt : String) (n : Nat) : DLTrace :=
  download env eng (fun _ => s.stopRequested) output_dir fmt n

/-- `MAX_RETRIES` (line 27), the default attempt budget. -/
def MAX_RETRIES : Nat := 3

/-- A fully permissive environment: ffmpeg present, directory exists. -/
def envOK : Env := ⟨true, true, true⟩

/-- A run with no cancellation. -/
def stopNever : Nat → Bool := fun _ => false

/-- A run whose stop flag is set before the first attempt. -/
def stopAlways : Nat → Bool := fun _ => true

/-- An engine that fails every invocation with a network timeout. -/
def engFailNT : Nat → EngineResult := fun _ => EngineResult.failure "network timeout"

/-- The metadata of the spec's scenario. -/
def clipInfo : MediaInfo := ⟨some "Clip", some "abc123"⟩

/-- An engine that fails attempt 1 with a network timeout and succeeds from
attempt 2 on, returning the spec scenario's metadata. -/
def engClip : Nat → EngineResult := fun i =>
  if i ≥ 2 then EngineResult.success clipInfo else EngineResult.failure "network timeout"

/-- A raw downloading event with known total but unknown downloaded bytes. -/
def evUnknownDB : RawEvent := ⟨some "downloading", none, some 100, none, none, none⟩

/-- A raw downloading event with zero downloaded bytes and known total. -/
def evZeroDB : RawEvent := ⟨some "downloading", some 0, some 100, none, none, none⟩

/-- A raw downloading event with all byte counts absent. -/
def evAllMissing : RawEvent := ⟨some "downloading", none, none, none, none, none⟩

/-- A well-behaved raw downloading event (50 of 100 bytes). -/
def evHalf : RawEvent := ⟨some "downloading", some 50, some 100, none, none, none⟩

/-! ## Lemmas about the attempt loop -/

/-- If the engine fails on every attempt in range and the stop flag is never
seen set, the loop consumes all its fuel: one engine call and one backoff
sleep of `1 + i` per attempt `i`, ending in the aggregate error carrying the
last attempt's message. -/
theorem loopGo_allFail (eng : Nat → EngineResult) (stopAt : Nat → Bool)
    (output_dir ext : String) (err : Nat → String) :
    ∀ fuel attempt lastErr calls sleeps, 1 ≤ fuel →
    (∀ i, attempt ≤ i → i < attempt + fuel → eng i = EngineResult.failure (err i)) →
    (∀ i, attempt ≤ i → i < attempt + fuel → stopAt i = false) →
    loopGo eng stopAt output_dir ext attempt fuel lastErr calls sleeps =
      ⟨Except.error (DLErr.allAttemptsFailed (some (err (attempt + fuel - 1)))),
       calls + fuel, sleeps ++ List.range' (attempt + 1) fuel⟩ := by
  intro fuel
  induction fuel with
  | zero => intro attempt lastErr calls sleeps h; omega
  | succ fuel ih =>
    intro attempt lastErr calls sleeps _ hfail hstop
    have hs : stopAt attempt = false := hstop attempt le_rfl (by omega)
    have hf : eng attempt = EngineResult.failure (err attempt) :=
      hfail attempt le_rfl (by omega)
    rw [loopGo, hs, hf]
    simp only [Bool.false_eq_true, if_false]
    rcases Nat.eq_zero_or_pos fuel with h0 | hpos
    · subst h0
      rw [loopGo]
      simp [List.range'_one, Nat.add_comm 1 attempt]
    · rw [ih (attempt + 1) (some (err attempt)) (calls + 1) (sleeps ++ [1 + attempt]) hpos
        (fun i h1 h2 => hfail i (by omega) (by omega))
        (fun i h1 h2 => hstop i (by omega) (by omega))]
      have h1 : attempt + 1 + fuel - 1 = attempt + (fuel + 1) - 1 := by omega
      have h2 : calls + 1 + fuel = calls + (fuel + 1) := by omega
      have h3 : sleeps ++ [1 + attempt] ++ List.range' (attempt + 1 + 1) fuel =
          sleeps ++ List.range' (attempt + 1) (fuel + 1) := by
        rw [List.range'_succ, List.append_assoc]
        simp [Nat.add_comm 1 attempt]
      rw [h1, h2, h3]

/-- If the engine fails on attempts before `K`, succeeds at `K`, and the stop
flag is never seen set up to `K`, the loop returns the final path after `K`
engine calls with sleeps after attempts `attempt..K-1` only. -/
theorem loopGo_succeedsAt (eng : Nat → EngineResult) (stopAt : Nat → Bool)
    (output_dir ext : String) (info : MediaInfo) (K : Nat) :
    ∀ fuel attempt lastErr calls sleeps,
    attempt ≤ K → K < attempt + fuel →
    (∀ i, attempt ≤ i → i < K → ∃ m, eng i = EngineResult.failure m) →
    eng K = EngineResult.success info →
    (∀ i, attempt ≤ i → i ≤ K → stopAt i = false) →
    loopGo eng stopAt output_dir ext attempt fuel lastErr calls sleeps =
      ⟨Except.ok (osPathJoin output_dir (finalFilename info ext)),
       calls + (K - attempt + 1), sleeps ++ List.range' (attempt + 1) (K - attempt)⟩ := by
  intro fuel
  induction fuel with
  | zero => intro attempt lastErr calls sleeps h1 h2; omega
  | succ fuel ih =>
    intro attempt lastErr calls sleeps hle hlt hfail hsucc hstop
    have hs : stopAt attempt = false := hstop attempt le_rfl hle
    rcases Nat.eq_or_lt_of_le hle with heq | hlt'
    · subst heq
      rw [loopGo, hs, hsucc]
      simp
    · obtain ⟨m, hm⟩ := hfail attempt le_rfl hlt'
      rw [loopGo, hs, hm]
      simp only [Bool.false_eq_true, if_false]
      rw [ih (attempt + 1) (some m) (calls + 1) (sleeps ++ [1 + attempt]) hlt' (by omega)
        (fun i hi1 hi2 => hfail i (by omega) hi2) hsucc
        (fun i hi1 hi2 => hstop i (by omega) hi2)]
      have h2 : calls + 1 + (K - (attempt + 1) + 1) = calls + (K - attempt + 1) := by omega
      have h3 : sleeps ++ [1 + attempt] ++ List.range' (attempt + 1 + 1) (K - (attempt + 1)) =
          sleeps ++ List.range' (attempt + 1) (K - attempt) := by
        have hKa : K - attempt = (K - (attempt + 1)) + 1 := by omega
        rw [hKa, List.range'_succ, List.append_assoc]
        simp [Nat.add_comm 1 attempt]
      rw [h2, h3]

/-- If the engine fails on attempts before `c`, and the stop flag is first
seen set at the check of attempt `c`, the loop stops there: attempt `c` is
never started, after `c - attempt` engine calls. -/
theorem loopGo_stoppedAt (eng : Nat → EngineResult) (stopAt : Nat → Bool)
    (output_dir ext : String) (c : Nat) :
    ∀ fuel attempt lastErr calls sleeps,
    attempt ≤ c → c < attempt + fuel →
    (∀ i, attempt ≤ i → i < c → ∃ m, eng i = EngineResult.failure m) →
    (∀ i, attempt ≤ i → i < c → stopAt i = false) →
    stopAt c = true →
    loopGo eng stopAt output_dir ext attempt fuel lastErr calls sleeps =
      ⟨Except.error DLErr.stopped,
       calls + (c - attempt), sleeps ++ List.range' (attempt + 1) (c - attempt)⟩ := by
  intro fuel
  induction fuel with
  | zero => intro attempt lastErr calls sleeps h1 h2; omega
  | succ fuel ih =>
    intro attempt lastErr calls sleeps hle hlt hfail hstopF hstopT
    rcases Nat.eq_or_lt_of_le hle with heq | hlt'
    · subst heq
      rw [loopGo, hstopT]
      simp
    · have hs : stopAt attempt = false := hstopF attempt le_rfl hlt'
      obtain ⟨m, hm⟩ := hfail attempt le_rfl hlt'
      rw [loopGo, hs, hm]
      simp only [Bool.false_eq_true, if_false]
      rw [ih (attempt + 1) (some m) (calls + 1) (sleeps ++ [1 + attempt]) hlt' (by omega)
        (fun i hi1 hi2 => hfail i (by omega) hi2)
        (fun i hi1 hi2 => hstopF i (by omega) hi2) hstopT]
      have h2 : calls + 1 + (c - (attempt + 1)) = calls + (c - attempt) := by omega
      have h3 : sleeps ++ [1 + attempt] ++ List.range' (attempt + 1 + 1) (c - (attempt + 1)) =
          sleeps ++ List.range' (attempt + 1) (c - attempt) := by
        have hca : c - attempt = (c - (attempt + 1)) + 1 := by omega
        rw [hca, List.range'_succ, List.append_assoc]
        simp [Nat.add_comm 1 attempt]
      rw [h2, h3]

/-- Unfolding `download` on a request that passes the format check, the ffmpeg
probe and the directory resolution: the trace is the loop's trace, the probe
ran exactly when the format is mp3, the path was resolved once, and the
directory was created exactly when absent. -/
theorem download_valid (env : Env) (eng : Nat → EngineResult) (stopAt : Nat → Bool)
    (output_dir fmt : String) (N : Nat)
    (hfmt : fmt = "mp4" ∨ fmt = "mp3")
    (hff : fmt = "mp3" → env.ffmpegAvailable = true)
    (hdir : env.isDir = true ∨ env.canCreate = true) :
    download env eng stopAt output_dir fmt N =
      { result := (loopGo eng stopAt output_dir (if fmt = "mp3" then "mp3" else "mp4")
                    1 N none 0 []).result
        probeCalls := if fmt = "mp3" then 1 else 0
        resolveCalls := 1
        createdDir := !env.isDir
        engineCalls := (loopGo eng stopAt output_dir (if fmt = "mp3" then "mp3" else "mp4")
                    1 N none 0 []).engineCalls
        sleeps := (loopGo eng stopAt output_dir (if fmt = "mp3" then "mp3" else "mp4")
                    1 N none 0 []).sleeps } := by
  rcases hdir with hd | hc
  · rcases hfmt with h | h <;> subst h <;>
      simp [download, safe_output_template, probeCallsFor, hd] <;> simp [hff rfl]
  · rcases hfmt with h | h <;> subst h <;>
      rcases hb : env.isDir with hd | hd <;>
      simp [download, safe_output_template, probeCallsFor, hb, hc] <;> simp [hff rfl]

/-- No operation on the downloader object ever clears the stop flag. -/
theorem runOps_mono (ops : List Op) :
    ∀ s : DownloaderState, s.stopRequested = true → (runOps s ops).stopRequested = true := by
  induction ops with
  | nil => intro s h; exact h
  | cons op ops ih =>
    intro s h
    rw [runOps, List.foldl_cons]
    apply ih
    cases op with
    | stop => rfl
    | download env eng d f n => exact h

/-- A `download` call that observes the stop flag set at every checkpoint
never reaches the engine and never succeeds, whatever the request. -/
theorem download_flag_set (env : Env) (eng : Nat → EngineResult)
    (output_dir fmt : String) (n : Nat) :
    (download env eng (fun _ => true) output_dir fmt n).engineCalls = 0 ∧
    (download env eng (fun _ => true) output_dir fmt n).sleeps = [] ∧
    ∀ p, (download env eng (fun _ => true) output_dir fmt n).result ≠ Except.ok p := by
  unfold download
  split
  · simp
  · split
    · simp
    · rcases h : safe_output_template env output_dir with e | ⟨t, c⟩
      · simp [h]
      · cases n with
        | zero => simp [loopGo]
        | succ n => simp [loopGo]

/-- One ingested event preserves the percent range invariant, provided that a
downloading event carries a known downloaded count no larger than its total. -/
theorem progress_hook_percent_bound (s : Snapshot) (e : RawEvent)
    (hgood : e.status = some "downloading" →
      0 ≤ downloadedBytesOf e ∧ downloadedBytesOf e ≤ totalBytesOf e)
    (hs : ∀ p, percentOf s = some p → 0 ≤ p ∧ p ≤ 100) :
    ∀ p, percentOf (progress_hook s e) = some p → 0 ≤ p ∧ p ≤ 100 := by
  intro p hp
  rw [progress_hook] at hp
  by_cases h1 : e.status = some "downloading"
  · rw [if_pos h1] at hp
    simp only [percentOf] at hp
    by_cases h2 : totalBytesOf e ≠ 0 ∧ downloadedBytesOf e ≠ 0 ∧ totalBytesOf e > 0
    · rw [if_pos h2] at hp
      obtain ⟨hd0, hdt⟩ := hgood h1
      obtain ⟨-, -, htpos⟩ := h2
      have hq : p = (downloadedBytesOf e : ℚ) / (totalBytesOf e : ℚ) * 100 :=
        (Option.some_injective _ hp).symm
      have htb : (0 : ℚ) < (totalBytesOf e : ℚ) := by exact_mod_cast htpos
      have hdb : (0 : ℚ) ≤ (downloadedBytesOf e : ℚ) := by exact_mod_cast hd0
      have hle : (downloadedBytesOf e : ℚ) ≤ (totalBytesOf e : ℚ) := by exact_mod_cast hdt
      subst hq
      constructor
      · exact mul_nonneg (div_nonneg hdb htb.le) (by norm_num)
      · have hone : (downloadedBytesOf e : ℚ) / (totalBytesOf e : ℚ) ≤ 1 :=
          (div_le_one htb).mpr hle
        calc (downloadedBytesOf e : ℚ) / (totalBytesOf e : ℚ) * 100
            ≤ 1 * 100 := mul_le_mul_of_nonneg_right hone (by norm_num)
          _ = 100 := by norm_num
    · rw [if_neg h2] at hp
      cases hp
  · rw [if_neg h1] at hp
    by_cases h2 : e.status = some "finished"
    · rw [if_pos h2] at hp
      simp [percentOf] at hp
    · rw [if_neg h2] at hp
      by_cases h3 : e.status = some "error"
      · rw [if_pos h3] at hp
        simp [percentOf] at hp
      · rw [if_neg h3] at hp
        exact hs p hp

/-- C2 (corrected): for any sequence of raw downloading events in which every
downloading event reports a known downloaded byte count (0 ≤ downloaded) no
larger than its total, the resulting snapshot's percent is absent or lies in
[0, 100].  (Without that proviso the claim fails: an unknown downloaded count
defaults to -1 and yields a negative percent, see the counterexample.) -/
theorem C2_percent_in_range (evs : List RawEvent)
    (h : ∀ e ∈ evs, e.status = some "downloading" →
       0 ≤ downloadedBytesOf e ∧ downloadedBytesOf e ≤ totalBytesOf e) :
    ∀ p, percentOf (ingestAll Snapshot.empty evs) = some p → 0 ≤ p ∧ p ≤ 100 := by
  suffices H : ∀ l : List RawEvent, (∀ e ∈ l, e.status = some "downloading" →
       0 ≤ downloadedBytesOf e ∧ downloadedBytesOf e ≤ totalBytesOf e) →
      ∀ s : Snapshot, (∀ p, percentOf s = some p → 0 ≤ p ∧ p ≤ 100) →
      ∀ p, percentOf (ingestAll s l) = some p → 0 ≤ p ∧ p ≤ 100 by
    refine H evs h Snapshot.empty ?_
    intro p hp
    simp [percentOf] at hp
  intro l
  induction l with
  | nil => intro _ s hs; simpa [ingestAll] using hs
  | cons e t ih =>
    intro hl s hs
    have hstep : ∀ p, percentOf (progress_hook s e) = some p → 0 ≤ p ∧ p ≤ 100 :=
      progress_hook_percent_bound s e (hl e (List.mem_cons_self e t)) hs
    have htail := ih (fun e' he' => hl e' (List.mem_cons_of_mem e he')) (progress_hook s e) hstep
    intro p hp
    exact htail p hp

/-- C2 witness: the in-range conclusion at the concrete one-event sequence
reporting 50 of 100 bytes, whose percent is 50. -/
theorem C2_percent_in_range_witness : (0 : ℚ) ≤ 50 ∧ (50 : ℚ) ≤ 100 :=
  C2_percent_in_range [evHalf] (by decide) 50 (by
    show some ((((50 : Int) : ℚ)) / (((100 : Int) : ℚ)) * 100) = some 50
    norm_num)

/-- C2 counterexample: a raw downloading event with total 100 > 0 but an
absent downloaded count (defaulted to -1 by the hook) produces the snapshot
percent -1, which is negative — refuting "never negative" as claimed. -/
theorem C2_counterexample :
    totalBytesOf evUnknownDB = 100 ∧
    percentOf (ingestAll Snapshot.empty [evUnknownDB]) = some (-1) ∧ ((-1 : ℚ) < 0) := by
  refine ⟨rfl, ?_, by norm_num⟩
  show some ((((-1 : Int) : ℚ)) / (((100 : Int) : ℚ)) * 100) = some (-1)
  norm_num

/-- C4 (corrected): for a raw downloading event, the snapshot's percent is
present and equals downloaded/total*100 exactly when the effective total is
positive AND the effective downloaded count is nonzero (not, as claimed, when
it is >= 0: a reported 0 is falsy in the source's truthiness test, and an
absent count defaults to -1 and still yields a percent); absent byte counts
map to -1 in the snapshot rather than raising. -/
theorem C4_percent_exact (s : Snapshot) (e : RawEvent)
    (h : e.status = some "downloading") :
    percentOf (progress_hook s e) =
      (if 0 < totalBytesOf e ∧ downloadedBytesOf e ≠ 0
       then some ((downloadedBytesOf e : ℚ) / (totalBytesOf e : ℚ) * 100)
       else none) ∧
    (e.downloaded_bytes = none → snapDownloaded (progress_hook s e) = some (-1)) ∧
    (e.total_bytes = none → e.total_bytes_estimate = none →
       snapTotal (progress_hook s e) = some (-1)) := by
  refine ⟨?_, ?_, ?_⟩
  · rw [progress_hook, if_pos h]
    simp only [percentOf]
    have hiff : (totalBytesOf e ≠ 0 ∧ downloadedBytesOf e ≠ 0 ∧ totalBytesOf e > 0) ↔
        (0 < totalBytesOf e ∧ downloadedBytesOf e ≠ 0) := by
      constructor
      · rintro ⟨-, h2, h3⟩; exact ⟨h3, h2⟩
      · rintro ⟨h1, h2⟩; exact ⟨by omega, h2, h1⟩
    rw [if_congr hiff rfl rfl]
  · intro hdb
    rw [progress_hook, if_pos h]
    simp [snapDownloaded, downloadedBytesOf, hdb]
  · intro h1 h2
    rw [progress_hook, if_pos h]
    simp [snapTotal, totalBytesOf, h1, h2]

/-- C4 witness: at the concrete downloading event with every byte count
absent, the percent is absent and both counts are stored as -1. -/
theorem C4_percent_exact_witness :
    percentOf (progress_hook Snapshot.empty evAllMissing) = none ∧
    snapDownloaded (progress_hook Snapshot.empty evAllMissing) = some (-1) ∧
    snapTotal (progress_hook Snapshot.empty evAllMissing) = some (-1) := by
  have h := C4_percent_exact Snapshot.empty evAllMissing rfl
  refine ⟨?_, h.2.1 rfl, h.2.2 rfl rfl⟩
  rw [h.1]
  decide

/-- C4 counterexample: the event reporting downloaded = 0 with total = 100
has total > 0 and downloaded >= 0, yet the snapshot's percent is absent where
the claim requires it to equal 0/100*100. -/
theorem C4_counterexample :
    (0 : Int) ≤ downloadedBytesOf evZeroDB ∧
    0 < totalBytesOf evZeroDB ∧
    percentOf (progress_hook Snapshot.empty evZeroDB) = none := by
  exact ⟨by decide, by decide, rfl⟩

/-- C1 (corrected): for a valid request with max attempts N >= 1 and an engine
failing every invocation, `download` makes exactly N engine invocations, and a
backoff sleep of 1+attempt time units follows EVERY failed attempt — including
the Nth, contrary to the claim — giving the strictly increasing durations
[2, 3, ..., N+1]; the run ends in the aggregate error citing the Nth error. -/
theorem C1_all_attempts_fail (env : Env) (eng : Nat → EngineResult) (err : Nat → String)
    (output_dir fmt : String) (N : Nat) (hN : 1 ≤ N)
    (hfmt : fmt = "mp4" ∨ fmt = "mp3")
    (hff : fmt = "mp3" → env.ffmpegAvailable = true)
    (hdir : env.isDir = true ∨ env.canCreate = true)
    (heng : ∀ i, eng i = EngineResult.failure (err i)) :
    (download env eng stopNever output_dir fmt N).engineCalls = N ∧
    (download env eng stopNever output_dir fmt N).sleeps = List.range' 2 N ∧
    List.Pairwise (· < ·) (download env eng stopNever output_dir fmt N).sleeps ∧
    (download env eng stopNever output_dir fmt N).result =
      Except.error (DLErr.allAttemptsFailed (some (err N))) := by
  have hu := download_valid env eng stopNever output_dir fmt N hfmt hff hdir
  have hl := loopGo_allFail eng stopNever output_dir
    (if fmt = "mp3" then "mp3" else "mp4") err N 1 none 0 [] hN
    (fun i _ _ => heng i) (fun i _ _ => rfl)
  have h1N : 1 + N - 1 = N := by omega
  rw [h1N] at hl
  rw [hu]
  simp only [hl, List.nil_append, Nat.zero_add]
  exact ⟨trivial, trivial, List.pairwise_lt_range' 2 N, trivial⟩

/-- C1 witness: N = 3 with a concretely failing engine gives 3 invocations,
sleeps [2, 3, 4] and the aggregate error citing the third error. -/
theorem C1_all_attempts_fail_witness :
    (download envOK engFailNT stopNever "/tmp/out" "mp4" 3).engineCalls = 3 ∧
    (download envOK engFailNT stopNever "/tmp/out" "mp4" 3).sleeps = [2, 3, 4] ∧
    List.Pairwise (· < ·) (download envOK engFailNT stopNever "/tmp/out" "mp4" 3).sleeps ∧
    (download envOK engFailNT stopNever "/tmp/out" "mp4" 3).result =
      Except.error (DLErr.allAttemptsFailed (some "network timeout")) := by
  have h := C1_all_attempts_fail envOK engFailNT (fun _ => "network timeout")
    "/tmp/out" "mp4" 3 (by omega) (Or.inl rfl) (fun hc => absurd hc (by decide))
    (Or.inl rfl) (fun i => rfl)
  refine ⟨h.1, ?_, h.2.2.1, h.2.2.2⟩
  rw [h.2.1]
  decide

/-- C1 counterexample: with max attempts N = 1 and an always-failing engine,
the code performs one engine invocation but then sleeps once (2 time units)
AFTER the first and only — hence the Nth — attempt, where the claim requires
no backoff wait after the Nth attempt. -/
theorem C1_counterexample :
    (download envOK engFailNT stopNever "/tmp/out" "mp4" 1).engineCalls = 1 ∧
    (download envOK engFailNT stopNever "/tmp/out" "mp4" 1).sleeps = [2] := by
  decide

/-- C3 (corrected): when all N attempts fail, the terminal error wraps the
last (Nth) underlying engine error, whose message appears verbatim in the
raised message — but the number of attempts made is not part of the error
(see the counterexample: different attempt counts give identical errors). -/
theorem C3_last_error_reported (env : Env) (eng : Nat → EngineResult) (err : Nat → String)
    (output_dir fmt : String) (N : Nat) (hN : 1 ≤ N)
    (hfmt : fmt = "mp4" ∨ fmt = "mp3")
    (hff : fmt = "mp3" → env.ffmpegAvailable = true)
    (hdir : env.isDir = true ∨ env.canCreate = true)
    (heng : ∀ i, eng i = EngineResult.failure (err i)) :
    (download env eng stopNever output_dir fmt N).result =
      Except.error (DLErr.allAttemptsFailed (some (err N))) ∧
    ∃ pre, allAttemptsFailedMessage (some (err N)) = pre ++ err N := by
  have hu := download_valid env eng stopNever output_dir fmt N hfmt hff hdir
  have hl := loopGo_allFail eng stopNever output_dir
    (if fmt = "mp3" then "mp3" else "mp4") err N 1 none 0 [] hN
    (fun i _ _ => heng i) (fun i _ _ => rfl)
  have h1N : 1 + N - 1 = N := by omega
  rw [h1N] at hl
  rw [hu]
  simp only [hl]
  exact ⟨trivial, ⟨"All attempts failed. Last error: ", rfl⟩⟩

/-- C3 witness: the terminal error and its message at N = 2 with a concretely
failing engine. -/
theorem C3_last_error_reported_witness :
    (download envOK engFailNT stopNever "/tmp/out" "mp4" 2).result =
      Except.error (DLErr.allAttemptsFailed (some "network timeout")) ∧
    ∃ pre, allAttemptsFailedMessage (some "network timeout") = pre ++ "network timeout" :=
  C3_last_error_reported envOK engFailNT (fun _ => "network timeout")
    "/tmp/out" "mp4" 2 (by omega) (Or.inl rfl) (fun hc => absurd hc (by decide))
    (Or.inl rfl) (fun i => rfl)

/-- C3 counterexample: one failing attempt and two failing attempts produce
exactly the same terminal error value and message — the attempt count is not
included in the aggregate error, contrary to the claim. -/
theorem C3_counterexample :
    (download envOK engFailNT stopNever "/tmp/out" "mp4" 1).engineCalls = 1 ∧
    (download envOK engFailNT stopNever "/tmp/out" "mp4" 2).engineCalls = 2 ∧
    (download envOK engFailNT stopNever "/tmp/out" "mp4" 1).result =
      (download envOK engFailNT stopNever "/tmp/out" "mp4" 2).result ∧
    (download envOK engFailNT stopNever "/tmp/out" "mp4" 1).result =
      Except.error (DLErr.allAttemptsFailed (some "network timeout")) ∧
    allAttemptsFailedMessage (some "network timeout") =
      "All attempts failed. Last error: network timeout" :=
  ⟨by decide, by decide, rfl, rfl, rfl⟩

/-- C5 (confirmed): when the engine succeeds on attempt K <= N of a valid
request, exactly K engine invocations occur, backoff sleeps follow only the
failed attempts 1..K-1 (durations [2, ..., K]), and the result is the join of
the destination directory with "<title> [<id>].<ext>" from the engine's
metadata. -/
theorem C5_success_at_K (env : Env) (eng : Nat → EngineResult) (output_dir fmt : String)
    (N K : Nat) (info : MediaInfo) (t vid : String)
    (hfmt : fmt = "mp4" ∨ fmt = "mp3")
    (hff : fmt = "mp3" → env.ffmpegAvailable = true)
    (hdir : env.isDir = true ∨ env.canCreate = true)
    (hK1 : 1 ≤ K) (hKN : K ≤ N)
    (hfail : ∀ i, 1 ≤ i → i < K → ∃ m, eng i = EngineResult.failure m)
    (hsucc : eng K = EngineResult.success info)
    (htitle : info.title = some t) (ht : t ≠ "") (hid : info.id = some vid) :
    (download env eng stopNever output_dir fmt N).engineCalls = K ∧
    (download env eng stopNever output_dir fmt N).sleeps = List.range' 2 (K - 1) ∧
    (download env eng stopNever output_dir fmt N).result =
      Except.ok (osPathJoin output_dir
        (t ++ " [" ++ vid ++ "]." ++ (if fmt = "mp3" then "mp3" else "mp4"))) := by
  have hu := download_valid env eng stopNever output_dir fmt N hfmt hff hdir
  have hl := loopGo_succeedsAt eng stopNever output_dir
    (if fmt = "mp3" then "mp3" else "mp4") info K N 1 none 0 [] hK1 (by omega)
    hfail hsucc (fun i _ _ => rfl)
  have hcalls : K - 1 + 1 = K := by omega
  rw [hcalls] at hl
  have hfn : finalFilename info (if fmt = "mp3" then "mp3" else "mp4") =
      t ++ " [" ++ vid ++ "]." ++ (if fmt = "mp3" then "mp3" else "mp4") := by
    simp [finalFilename, titleOf, htitle, ht, hid, pyStrOpt]
  rw [hu]
  simp only [hl, hfn, List.nil_append, Nat.zero_add]
  exact ⟨trivial, trivial, trivial⟩

/-- C5 witness: the spec's scenario — directory "/tmp/out", N = 3, attempt 1
fails with a network timeout, attempt 2 returns title "Clip" and id "abc123":
2 invocations, one backoff sleep of 2 units, final path
"/tmp/out/Clip [abc123].mp4". -/
theorem C5_success_at_K_witness :
    (download envOK engClip stopNever "/tmp/out" "mp4" 3).engineCalls = 2 ∧
    (download envOK engClip stopNever "/tmp/out" "mp4" 3).sleeps = [2] ∧
    (download envOK engClip stopNever "/tmp/out" "mp4" 3).result =
      Except.ok "/tmp/out/Clip [abc123].mp4" := by
  have h := C5_success_at_K envOK engClip "/tmp/out" "mp4" 3 2 clipInfo "Clip" "abc123"
    (Or.inl rfl) (fun hc => absurd hc (by decide)) (Or.inl rfl) (by omega) (by omega)
    (fun i h1 h2 => by
      have hi : i = 1 := by omega
      subst hi
      exact ⟨"network timeout", rfl⟩)
    rfl rfl (by decide) rfl
  refine ⟨h.1, ?_, ?_⟩
  · rw [h.2.1]
    decide
  · rw [h.2.2]
    rfl

/-- C6 (confirmed): if the stop flag is observed clear at the checks of
attempts 1..c-1 (which all fail) and set at the check of attempt c <= N, then
attempt c never starts: the run makes exactly c-1 engine invocations and
terminates with the cancellation error.  With c = 1 this is cancellation
before any attempt: zero engine invocations. -/
theorem C6_cancel_at_checkpoint (env : Env) (eng : Nat → EngineResult) (stopAt : Nat → Bool)
    (output_dir fmt : String) (N c : Nat)
    (hfmt : fmt = "mp4" ∨ fmt = "mp3")
    (hff : fmt = "mp3" → env.ffmpegAvailable = true)
    (hdir : env.isDir = true ∨ env.canCreate = true)
    (hc1 : 1 ≤ c) (hcN : c ≤ N)
    (hfail : ∀ i, 1 ≤ i → i < c → ∃ m, eng i = EngineResult.failure m)
    (hstopF : ∀ i, 1 ≤ i → i < c → stopAt i = false)
    (hstopT : stopAt c = true) :
    (download env eng stopAt output_dir fmt N).result = Except.error DLErr.stopped ∧
    (download env eng stopAt output_dir fmt N).engineCalls = c - 1 := by
  have hu := download_valid env eng stopAt output_dir fmt N hfmt hff hdir
  have hl := loopGo_stoppedAt eng stopAt output_dir
    (if fmt = "mp3" then "mp3" else "mp4") c N 1 none 0 [] hc1 (by omega)
    hfail hstopF hstopT
  rw [hu]
  simp only [hl, Nat.zero_add]
  exact ⟨trivial, trivial⟩

/-- C6 witness: the flag set before the first attempt (c = 1, N = 3) gives the
cancellation error with zero engine invocations. -/
theorem C6_cancel_at_checkpoint_witness :
    (download envOK engFailNT stopAlways "/tmp/out" "mp4" 3).result =
      Except.error DLErr.stopped ∧
    (download envOK engFailNT stopAlways "/tmp/out" "mp4" 3).engineCalls = 0 :=
  C6_cancel_at_checkpoint envOK engFailNT stopAlways "/tmp/out" "mp4" 3 1
    (Or.inl rfl) (fun hc => absurd hc (by decide)) (Or.inl rfl) (by omega) (by omega)
    (fun i h1 h2 => absurd h2 (by omega)) (fun i h1 h2 => absurd h2 (by omega)) rfl

/-- C7 (confirmed): a request for format mp3 (AUDIO) on a host without ffmpeg
fails with the missing-dependency error and zero engine invocations. -/
theorem C7_missing_ffmpeg (env : Env) (eng : Nat → EngineResult) (stopAt : Nat → Bool)
    (output_dir : String) (N : Nat) (hff : env.ffmpegAvailable = false) :
    (download env eng stopAt output_dir "mp3" N).result =
      Except.error DLErr.missingDependency ∧
    (download env eng stopAt output_dir "mp3" N).engineCalls = 0 := by
  simp [download, hff, probeCallsFor]

/-- C7 witness: the concrete no-ffmpeg environment. -/
theorem C7_missing_ffmpeg_witness :
    (download ⟨false, true, true⟩ engFailNT stopNever "/tmp/out" "mp3" 3).result =
      Except.error DLErr.missingDependency ∧
    (download ⟨false, true, true⟩ engFailNT stopNever "/tmp/out" "mp3" 3).engineCalls = 0 :=
  C7_missing_ffmpeg ⟨false, true, true⟩ engFailNT stopNever "/tmp/out" 3 rfl

/-- C8 (confirmed): a request whose format is neither mp4 nor mp3 fails with
the invalid-format error before the ffmpeg probe, before path resolution and
before any engine invocation. -/
theorem C8_invalid_format (env : Env) (eng : Nat → EngineResult) (stopAt : Nat → Bool)
    (output_dir fmt : String) (N : Nat)
    (h1 : fmt ≠ "mp4") (h2 : fmt ≠ "mp3") :
    (download env eng stopAt output_dir fmt N).result = Except.error DLErr.invalidFormat ∧
    (download env eng stopAt output_dir fmt N).probeCalls = 0 ∧
    (download env eng stopAt output_dir fmt N).resolveCalls = 0 ∧
    (download env eng stopAt output_dir fmt N).engineCalls = 0 := by
  simp [download, h1, h2]

/-- C8 witness: the concrete unsupported format "avi". -/
theorem C8_invalid_format_witness :
    (download envOK engFailNT stopNever "/tmp/out" "avi" 3).result =
      Except.error DLErr.invalidFormat ∧
    (download envOK engFailNT stopNever "/tmp/out" "avi" 3).probeCalls = 0 ∧
    (download envOK engFailNT stopNever "/tmp/out" "avi" 3).resolveCalls = 0 ∧
    (download envOK engFailNT stopNever "/tmp/out" "avi" 3).engineCalls = 0 :=
  C8_invalid_format envOK engFailNT stopNever "/tmp/out" "avi" 3 (by decide) (by decide)

/-- C9 (confirmed): when the destination directory is absent, a valid request
fails with the IO error and zero engine invocations if the directory cannot be
created, and otherwise the directory (with parents, as `os.makedirs` does) is
created during path resolution, before the first attempt. -/
theorem C9_output_directory (env : Env) (eng : Nat → EngineResult) (stopAt : Nat → Bool)
    (output_dir fmt : String) (N : Nat)
    (hfmt : fmt = "mp4" ∨ fmt = "mp3")
    (hff : fmt = "mp3" → env.ffmpegAvailable = true)
    (hnot : env.isDir = false) :
    (env.canCreate = false →
       (download env eng stopAt output_dir fmt N).result = Except.error DLErr.ioError ∧
       (download env eng stopAt output_dir fmt N).engineCalls = 0) ∧
    (env.canCreate = true →
       (download env eng stopAt output_dir fmt N).createdDir = true) := by
  constructor
  · intro hcc
    rcases hfmt with h | h <;> subst h <;>
      simp [download, safe_output_template, probeCallsFor, hnot, hcc] <;> simp [hff rfl]
  · intro hcc
    have hu := download_valid env eng stopAt output_dir fmt N hfmt hff (Or.inr hcc)
    rw [hu]
    simp [hnot]

/-- C9 witness: the two concrete absent-directory environments, one where
creation fails and one where it succeeds. -/
theorem C9_output_directory_witness :
    ((download ⟨true, false, false⟩ engFailNT stopNever "/tmp/out" "mp4" 3).result =
       Except.error DLErr.ioError ∧
     (download ⟨true, false, false⟩ engFailNT stopNever "/tmp/out" "mp4" 3).engineCalls = 0) ∧
    (download ⟨true, false, true⟩ engFailNT stopNever "/tmp/out" "mp4" 3).createdDir = true :=
  ⟨(C9_output_directory ⟨true, false, false⟩ engFailNT stopNever "/tmp/out" "mp4" 3
      (Or.inl rfl) (fun hc => absurd hc (by decide)) rfl).1 rfl,
   (C9_output_directory ⟨true, false, true⟩ engFailNT stopNever "/tmp/out" "mp4" 3
      (Or.inl rfl) (fun hc => absurd hc (by decide)) rfl).2 rfl⟩

/-- C10 (confirmed): the stop flag is monotone — `stop()` sets it and no
operation on the downloader object ever clears it — so after any operation
sequence containing a `stop()`, every subsequent `download()` call, whatever
its request, makes zero engine invocations and never returns a success. -/
theorem C10_stop_is_monotone (ops1 ops2 : List Op) (env : Env) (eng : Nat → EngineResult)
    (output_dir fmt : String) (n : Nat) :
    (runOps initState (ops1 ++ Op.stop :: ops2)).stopRequested = true ∧
    (downloadOp (runOps initState (ops1 ++ Op.stop :: ops2))
        env eng output_dir fmt n).engineCalls = 0 ∧
    ∀ p, (downloadOp (runOps initState (ops1 ++ Op.stop :: ops2))
        env eng output_dir fmt n).result ≠ Except.ok p := by
  have hflag : (runOps initState (ops1 ++ Op.stop :: ops2)).stopRequested = true := by
    rw [runOps, List.foldl_append, List.foldl_cons]
    exact runOps_mono ops2 _ rfl
  have h := download_flag_set env eng output_dir fmt n
  refine ⟨hflag, ?_, ?_⟩
  · simpa [downloadOp, hflag] using h.1
  · intro p
    simpa [downloadOp, hflag] using h.2.2 p
